import Mathlib

/-!
Shallow embedding of the browser-side scripts of maprando-plando: the HSV
color picker, form persistence to local storage, the seed upload handlers,
and the ROM validator.  JavaScript numbers are modelled as exact rationals;
DOM state touched by a handler is modelled as explicit record state.
-/

/-- JavaScript `x % y` for a nonnegative dividend and a positive divisor
(the only use in the source is `(pickerColorH / 60) % 2` with a nonnegative
hue), where it agrees with `x - y * floor (x / y)`. -/
def jsMod (x y : ℚ) : ℚ := x - y * (⌊x / y⌋ : ℤ)

/-- `Math.max(Math.min(r, 255), 0)`, the per-channel clamp in `hsvToRgb`. -/
def clamp255 (r : ℚ) : ℚ := max (min r 255) 0

/-- The process-wide mutable color state `pickerColorH`, `pickerColorS`,
`pickerColorV`. -/
structure ColorState where
  pickerColorH : ℚ
  pickerColorS : ℚ
  pickerColorV : ℚ
deriving DecidableEq

/-- `hsvToRgb()`: sector-based HSV to RGB conversion over the picker state,
returning the `[r, g, b]` triple with each channel scaled to and clamped
into `[0, 255]`. -/
def hsvToRgb (st : ColorState) : ℚ × ℚ × ℚ :=
  let c := st.pickerColorV * st.pickerColorS
  let x := c * (1 - |jsMod (st.pickerColorH / 60) 2 - 1|)
  let m := st.pickerColorV - c
  let rgb : ℚ × ℚ × ℚ :=
    if st.pickerColorH < 60 then (c, x, 0)
    else if st.pickerColorH < 120 then (x, c, 0)
    else if st.pickerColorH < 180 then (0, c, x)
    else if st.pickerColorH < 240 then (0, x, c)
    else if st.pickerColorH < 300 then (x, 0, c)
    else (c, 0, x)
  (clamp255 ((rgb.1 + m) * 255), clamp255 ((rgb.2.1 + m) * 255),
    clamp255 ((rgb.2.2 + m) * 255))

/-- `rgbToHsv(r, g, b)`: value is `max / 255`, saturation is
`(max - min) / max` (0 when `max` is 0), hue is computed from the dominant
channel and normalized into nonnegative degrees. -/
def rgbToHsv (r g b : ℚ) : ℚ × ℚ × ℚ :=
  let mx := max r (max g b)
  let mn := min r (min g b)
  let v := mx / 255
  let s := if mx ≠ 0 then (mx - mn) / mx else 0
  let h0 :=
    if mx - mn ≠ 0 then
      if r ≥ g ∧ r ≥ b then 60 * (g - b) / (mx - mn)
      else if g ≥ r ∧ g ≥ b then 120 + 60 * (b - r) / (mx - mn)
      else 240 + 60 * (r - g) / (mx - mn)
    else 0
  let h := if h0 < 0 then h0 + 360 else h0
  (h, s, v)

/-- A `getBoundingClientRect()` result, reduced to the edges the picker
reads. -/
structure Bbox where
  left : ℚ
  right : ℚ
  top : ℚ
  bottom : ℚ
deriving DecidableEq

/-- `setPickerSV(x, y)`: map the pointer position over the 2-D surface to
saturation and value, clamping both ratios into `[0, 1]` (the vertical axis
is inverted).  The subsequent `setPickerColor()` call only re-derives
displays and does not write the hue, saturation or value. -/
def setPickerSV (bbox : Bbox) (x y : ℚ) (st : ColorState) : ColorState :=
  let relX := x - bbox.left
  let relY := y - bbox.top
  let xRatio := relX / (bbox.right - bbox.left)
  let yRatio := relY / (bbox.bottom - bbox.top)
  let xRatio := min (max xRatio 0) 1
  let yRatio := min (max yRatio 0) 1
  let yRatio := 1 - yRatio
  { st with pickerColorS := xRatio, pickerColorV := yRatio }

/-- `setPickerH(y)`: map the pointer position over the hue strip to a hue,
clamping the ratio into `[0, 1]` before scaling by 360. -/
def setPickerH (bbox : Bbox) (y : ℚ) (st : ColorState) : ColorState :=
  let relY := y - bbox.top
  let yRatio := relY / (bbox.bottom - bbox.top)
  let yRatio := min (max yRatio 0) 1
  { st with pickerColorH := 360 * yRatio }

/-- The numeric ranges the spec declares for the color state. -/
def ColorInv (st : ColorState) : Prop :=
  0 ≤ st.pickerColorH ∧ st.pickerColorH ≤ 360 ∧
    0 ≤ st.pickerColorS ∧ st.pickerColorS ≤ 1 ∧
    0 ≤ st.pickerColorV ∧ st.pickerColorV ≤ 1

instance (st : ColorState) : Decidable (ColorInv st) := by
  unfold ColorInv; infer_instance

/-- A character accepted by the character set of the picker's hex pattern
`[a-f\d]` under the case-insensitive flag. -/
def isHexCharCI (c : Char) : Bool :=
  c.isDigit || ('a' ≤ c && c ≤ 'f') || ('A' ≤ c && c ≤ 'F')

/-- The numeric value `parseInt` gives to one hex digit. -/
def hexDigitVal (c : Char) : ℕ :=
  if c.isDigit then c.toNat - '0'.toNat
  else if 'a' ≤ c ∧ c ≤ 'f' then c.toNat - 'a'.toNat + 10
  else c.toNat - 'A'.toNat + 10

/-- `parseInt(d1 ++ d2, 16)` on a two-hex-digit capture group. -/
def parseHex2 (c₁ c₂ : Char) : ℕ := 16 * hexDigitVal c₁ + hexDigitVal c₂

/-- Core of `/^#?([a-f\d]{2})([a-f\d]{2})([a-f\d]{2})$/i.exec`: after the
optional leading `#` the whole rest must be exactly six hex characters,
split into three two-digit groups parsed with `parseInt(_, 16)`. -/
def execHexCore (cs : List Char) : Option (ℕ × ℕ × ℕ) :=
  match cs with
  | [a, b, c, d, e, f] =>
      if isHexCharCI a && (isHexCharCI b && (isHexCharCI c &&
          (isHexCharCI d && (isHexCharCI e && isHexCharCI f)))) then
        some (parseHex2 a b, parseHex2 c d, parseHex2 e f)
      else none
  | _ => none

/-- The regex match in `pickerValueChanged`, returning the three parsed
channels on success. -/
def execHexPattern (s : String) : Option (ℕ × ℕ × ℕ) :=
  execHexCore (if s.data.head? = some '#' then s.data.tail else s.data)

/-- The spec's description of the accepted input: a case-insensitive
6-hex-digit pattern with an optional leading `#`. -/
def matchesHexPattern (s : String) : Bool :=
  let cs := if s.data.head? = some '#' then s.data.tail else s.data
  (cs.length == 6) && cs.all isHexCharCI

/-- `pickerValueChanged()` on a given field value: a non-match returns with
the color state untouched; a match overwrites the state from
`rgbToHsv` of the parsed triple.  The boolean records whether the derived
updates (`setPickerColor()`) ran. -/
def pickerValueChanged (input : String) (st : ColorState) :
    ColorState × Bool :=
  match execHexPattern input with
  | none => (st, false)
  | some (r, g, b) =>
      ({ pickerColorH := (rgbToHsv r g b).1,
         pickerColorS := (rgbToHsv r g b).2.1,
         pickerColorV := (rgbToHsv r g b).2.2 }, true)

/-- The lowercase hex digit JS produces for a value below 16
(`Number.prototype.toString(16)` and `Uint8Array.prototype.toHex` both use
lowercase). -/
def hexDigitChar (n : ℕ) : Char :=
  if n < 10 then Char.ofNat ('0'.toNat + n) else Char.ofNat ('a'.toNat + n - 10)

/-- One byte of `Uint8Array.prototype.toHex`: always two lowercase hex
digits. -/
def byteToHex (b : ℕ) : List Char := [hexDigitChar (b / 16), hexDigitChar (b % 16)]

/-- The `ToUint8` conversion applied to each element stored in a
`Uint8Array`. -/
def uint8 (n : ℕ) : ℕ := n % 256

/-- The hex string `setPickerColor` writes into the bound text field:
`new Uint8Array(pickerColor).toHex()`. -/
def toHexString (r g b : ℕ) : String :=
  String.mk (byteToHex (uint8 r) ++ byteToHex (uint8 g) ++ byteToHex (uint8 b))

/-- `b.toString(16)` for one digest byte (a value below 256). -/
def jsByteToString16 (b : ℕ) : List Char :=
  if b < 16 then [hexDigitChar b] else [hexDigitChar (b / 16), hexDigitChar (b % 16)]

/-- `.padStart(2, "0")` on a string of at most two characters. -/
def padStart2 (s : List Char) : List Char :=
  if s.length < 2 then '0' :: s else s

/-- The hex encoding in `patchROM`:
`hashArray.map((b) => b.toString(16).padStart(2, "0")).join("")`. -/
def hexEncode (digest : List ℕ) : String :=
  String.mk (List.flatten (digest.map (fun b => padStart2 (jsByteToString16 b))))

/-- The fixed expected SHA-256 digest of the vanilla ROM. -/
def expectedHash : String :=
  "12b77c4bc9c1832cee8881244659065ee1d84c70c3d29e6eaf92e6798cc2ca72"

/-- The observable outcome of one `patchROM` call: the final visibility of
the `romInvalid` warning (`true` means the `hidden` class is still
present), whether `form.submit()` ran, the returned value (`none` is JS
`undefined`), and whether the stored ROM bytes were read and digested. -/
structure PatchResult where
  warningHidden : Bool
  submitted : Bool
  returned : Option Bool
  digestComputed : Bool
deriving DecidableEq

/-- `patchROM(form)`: an empty ROM file field aborts at once; otherwise the
stored bytes are digested, hex-encoded and compared against
`expectedHash` — a mismatch reveals the warning and returns `false`, a
match submits the form.  `digest` stands for the SHA-256 of the stored
bytes, `warningHidden` for whether `romInvalid` currently has the `hidden`
class. -/
def patchROM (romValue : String) (digest : List ℕ) (warningHidden : Bool) :
    PatchResult :=
  if romValue = "" then
    ⟨warningHidden, false, some false, false⟩
  else if hexEncode digest ≠ expectedHash then
    ⟨false, false, some false, true⟩
  else
    ⟨warningHidden, true, none, true⟩

/-- The DOM state a `submitSeed` handler touches: the error region's text,
the submit control's `disabled` flag, whether the progress modal is open,
and `window.location.href` (`none` while unchanged). -/
structure UploadDom where
  errText : String
  submitDisabled : Bool
  modalOpen : Bool
  location : Option String
deriving DecidableEq

/-- The outcome of `fetch("/upload-seed", ...)`: either the promise
rejects with an error whose text is `e`, or a response arrives with a
status, a text body, and (for the success path) the `seed_id` field of its
JSON body. -/
inductive FetchResult where
  | fail (e : String)
  | resp (status : ℕ) (body : String) (seedId : String)
deriving DecidableEq

/-- `Response.ok`: the status is in the inclusive range 200–299. -/
def respOk (status : ℕ) : Bool := 200 ≤ status && status ≤ 299

/-- `submitSeed()` from `upload.js`: disable the submit button, open the
upload modal, POST the form; on rejection show `Error: <e>`, close the
modal and re-enable the button; on a non-ok status show
`Error status <status>: <body>`, close the modal and re-enable the
button; on success navigate to `seed/<seed_id>`. -/
def submitSeedUpload (fetch : FetchResult) (dom : UploadDom) : UploadDom :=
  let dom := { dom with submitDisabled := true }
  let dom := { dom with modalOpen := true }
  match fetch with
  | .fail e =>
      { dom with errText := "Error: " ++ e, modalOpen := false,
                 submitDisabled := false }
  | .resp status body seedId =>
      if respOk status then { dom with location := some ("seed/" ++ seedId) }
      else
        { dom with errText := "Error status " ++ toString status ++ ": " ++ body,
                   modalOpen := false, submitDisabled := false }

/-- `submitSeed()` from the seed page script: same fetch and error texts,
but no submit-button handling and no modal. -/
def submitSeedIndex (fetch : FetchResult) (dom : UploadDom) : UploadDom :=
  match fetch with
  | .fail e => { dom with errText := "Error: " ++ e }
  | .resp status body seedId =>
      if respOk status then { dom with location := some ("seed/" ++ seedId) }
      else
        { dom with errText := "Error status " ++ toString status ++ ": " ++ body }

/-- One form element, reduced to the properties `saveForm` and `loadForm`
read and write: `type`, `name`, `value` and `checked`. -/
structure FormField where
  type : String
  name : String
  value : String
  checked : Bool
deriving DecidableEq

/-- A value stored by `saveForm`: a string, or a boolean for checkboxes
(JSON keeps both kinds unchanged across the storage round trip). -/
inductive StoredVal where
  | str (s : String)
  | bool (b : Bool)
deriving DecidableEq

/-- The JS object `res` built by `saveForm`, observed as a key-value map. -/
abbrev Stored := String → Option StoredVal

/-- The fresh `res = {}`. -/
def emptyStored : Stored := fun _ => none

/-- `res[k] = v` on a JS object. -/
def setKey (m : Stored) (k : String) (v : StoredVal) : Stored :=
  fun n => if n = k then some v else m n

/-- JavaScript `ToNumber` on a string, in the fragment needed by loose
equality against a boolean: a whitespace-only string is 0, a string of
decimal digits is its value, anything else is NaN (`none`). -/
def jsToNumber (s : String) : Option ℚ :=
  let t := s.trim
  if t = "" then some 0
  else if t.data.all Char.isDigit then
    some ((t.data.foldl (fun a c => 10 * a + (c.toNat - '0'.toNat)) 0 : ℕ) : ℚ)
  else none

/-- JavaScript loose equality `v == s` between a value parsed from the
stored JSON and a DOM string value: two strings compare by content; a
boolean is coerced to a number (`true` to 1, `false` to 0) and compared
with `ToNumber` of the string. -/
def jsLooseEq : StoredVal → String → Bool
  | .str a, s => a == s
  | .bool b, s => decide (jsToNumber s = some (if b then (1 : ℚ) else 0))

/-- Assignment of a parsed stored value to `elem.checked`: JS coerces the
value to a boolean (a string is truthy when non-empty). -/
def toJsBool : StoredVal → Bool
  | .bool b => b
  | .str s => s != ""

/-- Assignment of a parsed stored value to `elem.value`: JS coerces the
value to a string. -/
def toJsString : StoredVal → String
  | .str s => s
  | .bool b => if b then "true" else "false"

/-- The loop body of `saveForm`: skip file-type and unnamed fields; an
unchecked radio writes the `''` sentinel only when its group has no entry
yet; a checkbox stores its checked flag; anything else (including a
checked radio) stores its value. -/
def saveFormStep (res : Stored) (elem : FormField) : Stored :=
  if elem.type = "file" ∨ elem.name = "" then res
  else if elem.type = "radio" ∧ elem.checked = false then
    (if res elem.name = none then setKey res elem.name (.str "") else res)
  else if elem.type = "checkbox" then setKey res elem.name (.bool elem.checked)
  else setKey res elem.name (.str elem.value)

/-- `saveForm(form)`: serialize the form's elements into the map stored
(JSON-encoded) under the form's id. -/
def saveForm (form : List FormField) : Stored :=
  form.foldl saveFormStep emptyStored

/-- The loop body of `loadForm`: skip file-type and unnamed fields; a radio
is checked iff the stored group value loosely equals its own value (and
left alone when the group has no entry); otherwise a present entry is
written back into `checked` (checkbox) or `value`. -/
def loadFormStep (data : Stored) (elem : FormField) : FormField :=
  if elem.type = "file" ∨ elem.name = "" then elem
  else if elem.type = "radio" then
    match data elem.name with
    | some v =>
        if jsLooseEq v elem.value then { elem with checked := true }
        else { elem with checked := false }
    | none => elem
  else
    match data elem.name with
    | some v =>
        if elem.type = "checkbox" then { elem with checked := toJsBool v }
        else { elem with value := toJsString v }
    | none => elem

/-- The field-restoring loop of `loadForm(form)` over the parsed stored
map (the JSON round trip through local storage is the identity on the
stored strings and booleans). -/
def loadForm (data : Stored) (form : List FormField) : List FormField :=
  form.map (loadFormStep data)

/-- The corresponding element of an identically structured form whose
fields are empty: same type and name, the markup `value` attribute kept
for radio and checkbox elements, text values cleared, nothing checked. -/
def emptyCopy (f : FormField) : FormField :=
  { f with
    value := if f.type = "radio" ∨ f.type = "checkbox" then f.value else "",
    checked := false }

/-- How one storage key evolves under `saveFormStep`, restricted to the
fields that write to that key. -/
def keyUpd (cur : Option StoredVal) (f : FormField) : Option StoredVal :=
  if f.type = "radio" ∧ f.checked = false then
    (if cur = none then some (.str "") else cur)
  else if f.type = "checkbox" then some (.bool f.checked)
  else some (.str f.value)

/-- The elements of a form that write to storage key `n`. -/
def fieldGroup (n : String) (form : List FormField) : List FormField :=
  form.filter (fun f => decide (f.name = n ∧ f.type ≠ "file"))

/-- Well-formedness of the set of fields sharing one storage key: either a
radio group whose members carry pairwise distinct non-empty values with at
most one of them checked, or a single non-radio field. -/
def GroupOK (g : List FormField) : Prop :=
  ((∀ f ∈ g, f.type = "radio" ∧ f.value ≠ "") ∧
      g.Pairwise (fun a b => a.value ≠ b.value) ∧
      g.countP (fun f => f.checked) ≤ 1)
    ∨ (∃ f, g = [f] ∧ f.type ≠ "radio")

/-! ### Helper lemmas -/

lemma clamp01_nonneg (r : ℚ) : 0 ≤ min (max r 0) 1 :=
  le_min (le_max_right r 0) zero_le_one

lemma clamp01_le_one (r : ℚ) : min (max r 0) 1 ≤ 1 :=
  min_le_right _ 1

lemma hexDigitChar_spec (d : ℕ) (hd : d < 16) :
    isHexCharCI (hexDigitChar d) = true ∧ hexDigitVal (hexDigitChar d) = d ∧
      hexDigitChar d ≠ '#' := by
  interval_cases d <;> exact ⟨by decide, by decide, by decide⟩

lemma setKey_apply (m : Stored) (k n : String) (v : StoredVal) :
    setKey m k v n = if n = k then some v else m n := rfl

lemma saveFormStep_apply_hit (acc : Stored) (f : FormField) (n : String)
    (hfn : f.name = n) (hn : n ≠ "") (hft : f.type ≠ "file") :
    saveFormStep acc f n = keyUpd (acc n) f := by
  unfold saveFormStep keyUpd
  rw [if_neg (by simp [hft, hfn, hn])]
  rw [hfn]
  by_cases h1 : f.type = "radio" ∧ f.checked = false
  · rw [if_pos h1, if_pos h1]
    by_cases h2 : acc n = none
    · rw [if_pos h2, if_pos h2]; simp [setKey]
    · rw [if_neg h2, if_neg h2]
  · rw [if_neg h1, if_neg h1]
    by_cases h3 : f.type = "checkbox"
    · rw [if_pos h3, if_pos h3]; simp [setKey]
    · rw [if_neg h3, if_neg h3]; simp [setKey]

lemma saveFormStep_apply_miss (acc : Stored) (f : FormField) (n : String)
    (hmiss : ¬(f.name = n ∧ f.type ≠ "file" ∧ n ≠ "")) :
    saveFormStep acc f n = acc n := by
  unfold saveFormStep
  by_cases h0 : f.type = "file" ∨ f.name = ""
  · rw [if_pos h0]
  · rw [if_neg h0]
    push_neg at h0
    have hne : n ≠ f.name := by
      rintro rfl
      exact hmiss ⟨rfl, h0.1, h0.2⟩
    by_cases h1 : f.type = "radio" ∧ f.checked = false
    · rw [if_pos h1]
      by_cases h2 : acc f.name = none
      · rw [if_pos h2]; simp [setKey, hne]
      · rw [if_neg h2]
    · rw [if_neg h1]
      by_cases h3 : f.type = "checkbox"
      · rw [if_pos h3]; simp [setKey, hne]
      · rw [if_neg h3]; simp [setKey, hne]

lemma foldl_saveFormStep_apply (form : List FormField) (acc : Stored)
    (n : String) (hn : n ≠ "") :
    (form.foldl saveFormStep acc) n = (fieldGroup n form).foldl keyUpd (acc n) := by
  induction form generalizing acc with
  | nil => rfl
  | cons f t ih =>
      rw [List.foldl_cons, ih]
      unfold fieldGroup
      rw [List.filter_cons]
      by_cases hf : f.name = n ∧ f.type ≠ "file"
      · rw [if_pos (by simpa using hf)]
        rw [List.foldl_cons]
        rw [saveFormStep_apply_hit acc f n hf.1 hn hf.2]
      · rw [if_neg (by simpa using hf)]
        rw [saveFormStep_apply_miss acc f n (fun hc => hf ⟨hc.1, hc.2.1⟩)]

lemma saveForm_apply (form : List FormField) (n : String) (hn : n ≠ "") :
    saveForm form n = (fieldGroup n form).foldl keyUpd none := by
  unfold saveForm
  rw [foldl_saveFormStep_apply form emptyStored n hn]
  rfl

lemma saveForm_apply_empty_name (form : List FormField) : saveForm form "" = none := by
  unfold saveForm
  suffices h : ∀ acc : Stored, (form.foldl saveFormStep acc) "" = acc "" by
    exact h emptyStored
  intro acc
  induction form generalizing acc with
  | nil => rfl
  | cons f t ih =>
      rw [List.foldl_cons, ih]
      exact saveFormStep_apply_miss acc f "" (fun hc => hc.2.2 rfl)

lemma execHexCore_isSome (cs : List Char) :
    (execHexCore cs).isSome = ((cs.length == 6) && cs.all isHexCharCI) := by
  rcases cs with _ | ⟨a, _ | ⟨b, _ | ⟨c, _ | ⟨d, _ | ⟨e, _ | ⟨f, _ | ⟨g, t⟩⟩⟩⟩⟩⟩⟩ <;>
    simp only [execHexCore, List.all_cons, List.all_nil, List.length_cons,
      List.length_nil, Option.isSome_none, Option.isSome_some] <;>
    first
      | rfl
      | (split_ifs with h <;> simp_all [Bool.and_assoc])

lemma execHexPattern_isSome (s : String) :
    (execHexPattern s).isSome = matchesHexPattern s := by
  unfold execHexPattern matchesHexPattern
  exact execHexCore_isSome _

/-! ### Claim theorems -/

/-- C2 counterexample: a pointer at `y = 150` below a hue strip spanning
`[0, 100]` clamps the ratio to 1 and sets the hue to exactly 360, so the
claimed invariant `hue < 360` fails after this pointer-driven update. -/
theorem C2_counterexample :
    (setPickerH ⟨0, 100, 0, 100⟩ 150 ⟨0, 1, 1⟩).pickerColorH = 360 ∧
      ¬(setPickerH ⟨0, 100, 0, 100⟩ 150 ⟨0, 1, 1⟩).pickerColorH < 360 := by
  norm_num [setPickerH]

/-- C2 (amended): after `setPickerSV` or `setPickerH`, for every bounding
box and every pointer coordinate (also outside the box), the color state
stays in range because the ratios are clamped — with hue in the closed
interval `[0, 360]`: the bottom edge of the strip yields exactly 360, and
`setPickerSV` leaves the hue unchanged, so the hue range is an invariant
rather than re-established. -/
theorem C2_ranges_amended (bb bb' : Bbox) (x y y' : ℚ) (st : ColorState)
    (h : ColorInv st) :
    ColorInv (setPickerSV bb x y st) ∧ ColorInv (setPickerH bb' y' st) := by
  obtain ⟨h1, h2, h3, h4, h5, h6⟩ := h
  constructor
  · unfold setPickerSV ColorInv
    dsimp only
    refine ⟨h1, h2, clamp01_nonneg _, clamp01_le_one _, ?_, ?_⟩
    · have := clamp01_le_one ((y - Bbox.top bb) / (Bbox.bottom bb - Bbox.top bb))
      linarith
    · have := clamp01_nonneg ((y - Bbox.top bb) / (Bbox.bottom bb - Bbox.top bb))
      linarith
  · unfold setPickerH ColorInv
    dsimp only
    refine ⟨?_, ?_, h3, h4, h5, h6⟩
    · have := clamp01_nonneg ((y' - Bbox.top bb') / (Bbox.bottom bb' - Bbox.top bb'))
      linarith
    · have := clamp01_le_one ((y' - Bbox.top bb') / (Bbox.bottom bb' - Bbox.top bb'))
      linarith

/-- Witness for C2: a concrete in-range state and concrete pointer
coordinates, one inside and one outside the boxes. -/
theorem C2_witness :
    ColorInv ⟨10, 1/2, 1/2⟩ ∧
      ColorInv (setPickerSV ⟨0, 100, 0, 100⟩ 30 250 ⟨10, 1/2, 1/2⟩) ∧
      ColorInv (setPickerH ⟨0, 100, 0, 100⟩ 40 ⟨10, 1/2, 1/2⟩) := by
  have h0 : ColorInv (⟨10, 1/2, 1/2⟩ : ColorState) := by
    unfold ColorInv; norm_num
  exact ⟨h0, C2_ranges_amended ⟨0, 100, 0, 100⟩ ⟨0, 100, 0, 100⟩ 30 250 40 _ h0⟩

/-- C4: for every triple of 8-bit channels, the 6-hex-digit string
generated the way `setPickerColor` generates it (`Uint8Array.toHex`,
lowercase) matches the hex pattern of `pickerValueChanged` and parses back
to the same triple. -/
theorem C4_hex_roundtrip (r g b : ℕ) (hr : r < 256) (hg : g < 256)
    (hb : b < 256) :
    execHexPattern (toHexString r g b) = some (r, g, b) := by
  obtain ⟨a1, v1, n1⟩ := hexDigitChar_spec (r / 16) (by omega)
  obtain ⟨a2, v2, _⟩ := hexDigitChar_spec (r % 16) (by omega)
  obtain ⟨a3, v3, _⟩ := hexDigitChar_spec (g / 16) (by omega)
  obtain ⟨a4, v4, _⟩ := hexDigitChar_spec (g % 16) (by omega)
  obtain ⟨a5, v5, _⟩ := hexDigitChar_spec (b / 16) (by omega)
  obtain ⟨a6, v6, _⟩ := hexDigitChar_spec (b % 16) (by omega)
  unfold toHexString uint8 byteToHex
  rw [Nat.mod_eq_of_lt hr, Nat.mod_eq_of_lt hg, Nat.mod_eq_of_lt hb]
  unfold execHexPattern
  simp only [List.cons_append, List.nil_append]
  rw [if_neg (by simp [n1])]
  unfold execHexCore
  dsimp only
  rw [if_pos (by simp [a1, a2, a3, a4, a5, a6])]
  unfold parseHex2
  rw [v1, v2, v3, v4, v5, v6]
  simp only [Option.some.injEq, Prod.mk.injEq]
  omega

/-- Witness for C4: the round trip at the concrete triple (255, 0, 18). -/
theorem C4_witness :
    255 < 256 ∧ 0 < 256 ∧ 18 < 256 ∧
      execHexPattern (toHexString 255 0 18) = some (255, 0, 18) :=
  ⟨by omega, by omega, by omega, C4_hex_roundtrip 255 0 18 (by omega) (by omega) (by omega)⟩

/-- C5: once the ROM field is non-empty, a digest that hex-encodes to the
fixed expected value makes `patchROM` submit the form, and any other
digest reveals the invalid-ROM warning (removes its `hidden` class), does
not submit, and returns `false`. -/
theorem C5_patchROM_digest (rom : String) (digest : List ℕ) (hidden : Bool)
    (h : rom ≠ "") :
    (hexEncode digest = expectedHash →
        (patchROM rom digest hidden).submitted = true ∧
        (patchROM rom digest hidden).warningHidden = hidden ∧
        (patchROM rom digest hidden).returned = none) ∧
    (hexEncode digest ≠ expectedHash →
        (patchROM rom digest hidden).warningHidden = false ∧
        (patchROM rom digest hidden).submitted = false ∧
        (patchROM rom digest hidden).returned = some false) := by
  unfold patchROM
  rw [if_neg h]
  constructor
  · intro he
    rw [if_neg (by simp [he])]
    exact ⟨rfl, rfl, rfl⟩
  · intro he
    rw [if_pos he]
    exact ⟨rfl, rfl, rfl⟩

/-- Witness for C5: the 32-byte digest that hex-encodes to the expected
value submits; the digest `[0]` reveals the warning, blocks submission and
returns `false`. -/
theorem C5_witness :
    ("rom.sfc" : String) ≠ "" ∧
      hexEncode [0x12, 0xb7, 0x7c, 0x4b, 0xc9, 0xc1, 0x83, 0x2c,
        0xee, 0x88, 0x81, 0x24, 0x46, 0x59, 0x06, 0x5e,
        0xe1, 0xd8, 0x4c, 0x70, 0xc3, 0xd2, 0x9e, 0x6e,
        0xaf, 0x92, 0xe6, 0x79, 0x8c, 0xc2, 0xca, 0x72] = expectedHash ∧
      (patchROM "rom.sfc" [0x12, 0xb7, 0x7c, 0x4b, 0xc9, 0xc1, 0x83, 0x2c,
        0xee, 0x88, 0x81, 0x24, 0x46, 0x59, 0x06, 0x5e,
        0xe1, 0xd8, 0x4c, 0x70, 0xc3, 0xd2, 0x9e, 0x6e,
        0xaf, 0x92, 0xe6, 0x79, 0x8c, 0xc2, 0xca, 0x72] true).submitted = true ∧
      (patchROM "rom.sfc" [0] true).warningHidden = false ∧
      (patchROM "rom.sfc" [0] true).submitted = false ∧
      (patchROM "rom.sfc" [0] true).returned = some false := by
  refine ⟨by decide, by decide, ?_, ?_, ?_, ?_⟩
  · exact ((C5_patchROM_digest "rom.sfc" _ true (by decide)).1 (by decide)).1
  · exact ((C5_patchROM_digest "rom.sfc" [0] true (by decide)).2 (by decide)).1
  · exact ((C5_patchROM_digest "rom.sfc" [0] true (by decide)).2 (by decide)).2.1
  · exact ((C5_patchROM_digest "rom.sfc" [0] true (by decide)).2 (by decide)).2.2

/-- C6: when the POST of the upload form rejects, both `submitSeed`
variants write `Error: ` followed by the raw error text into the error
region, and the submit control ends in its pre-attempt (enabled) state
before the handler returns. -/
theorem C6_network_error (e : String) (dom : UploadDom)
    (h : dom.submitDisabled = false) :
    (submitSeedUpload (.fail e) dom).errText = "Error: " ++ e ∧
    (submitSeedUpload (.fail e) dom).submitDisabled = dom.submitDisabled ∧
    (submitSeedIndex (.fail e) dom).errText = "Error: " ++ e ∧
    (submitSeedIndex (.fail e) dom).submitDisabled = dom.submitDisabled := by
  unfold submitSeedUpload submitSeedIndex
  simp [h]

/-- Witness for C6: a concrete failed fetch over an initially enabled
submit control. -/
theorem C6_witness :
    (⟨"", false, false, none⟩ : UploadDom).submitDisabled = false ∧
      (submitSeedUpload (.fail "TypeError: Failed to fetch")
          ⟨"", false, false, none⟩).errText = "Error: TypeError: Failed to fetch" ∧
      (submitSeedUpload (.fail "TypeError: Failed to fetch")
          ⟨"", false, false, none⟩).submitDisabled = false := by
  have h := C6_network_error "TypeError: Failed to fetch"
    ⟨"", false, false, none⟩ rfl
  exact ⟨rfl, h.1, h.2.1⟩

/-- C7: when the POST resolves with a non-success status, both
`submitSeed` variants write `Error status <status>: <body>` into the error
region. -/
theorem C7_http_error (status : ℕ) (body seedId : String) (dom : UploadDom)
    (h : respOk status = false) :
    (submitSeedUpload (.resp status body seedId) dom).errText =
        "Error status " ++ toString status ++ ": " ++ body ∧
    (submitSeedIndex (.resp status body seedId) dom).errText =
        "Error status " ++ toString status ++ ": " ++ body := by
  unfold submitSeedUpload submitSeedIndex
  simp [h]

/-- Witness for C7: status 500 with body `server error` displays exactly
`Error status 500: server error`. -/
theorem C7_witness :
    respOk 500 = false ∧
      (submitSeedUpload (.resp 500 "server error" "") ⟨"", false, false, none⟩).errText =
        "Error status 500: server error" ∧
      (submitSeedIndex (.resp 500 "server error" "") ⟨"", false, false, none⟩).errText =
        "Error status 500: server error" := by
  have h := C7_http_error 500 "server error" "" ⟨"", false, false, none⟩ (by decide)
  exact ⟨by decide, h.1.trans (by decide), h.2.trans (by decide)⟩

/-- C8: an input that does not match the case-insensitive 6-hex-digit
pattern (optional leading `#`) leaves the color state untouched and runs
no derived updates; a matching input replaces the state with
`rgbToHsv` of the parsed triple and runs the derived updates. -/
theorem C8_hex_input (input : String) (st : ColorState) :
    (matchesHexPattern input = false → pickerValueChanged input st = (st, false)) ∧
    (matchesHexPattern input = true →
      ∃ r g b : ℕ, execHexPattern input = some (r, g, b) ∧
        pickerValueChanged input st =
          ({ pickerColorH := (rgbToHsv r g b).1,
             pickerColorS := (rgbToHsv r g b).2.1,
             pickerColorV := (rgbToHsv r g b).2.2 }, true)) := by
  constructor
  · intro h
    have hnone : execHexPattern input = none := by
      have hs := execHexPattern_isSome input
      rw [h] at hs
      exact Option.not_isSome_iff_eq_none.mp (by simp [hs])
    unfold pickerValueChanged
    rw [hnone]
  · intro h
    have hs : (execHexPattern input).isSome := by
      rw [execHexPattern_isSome, h]
    obtain ⟨⟨r, g, b⟩, hrgb⟩ := Option.isSome_iff_exists.mp hs
    refine ⟨r, g, b, hrgb, ?_⟩
    unfold pickerValueChanged
    rw [hrgb]

/-- Witness for C8: `not hex` is rejected with the state unchanged;
`#1A2b3C` is accepted. -/
theorem C8_witness :
    matchesHexPattern "not hex" = false ∧
      pickerValueChanged "not hex" ⟨10, 1/2, 1/2⟩ = (⟨10, 1/2, 1/2⟩, false) ∧
      matchesHexPattern "#1A2b3C" = true ∧
      (∃ r g b : ℕ, execHexPattern "#1A2b3C" = some (r, g, b) ∧
        pickerValueChanged "#1A2b3C" ⟨10, 1/2, 1/2⟩ =
          ({ pickerColorH := (rgbToHsv r g b).1,
             pickerColorS := (rgbToHsv r g b).2.1,
             pickerColorV := (rgbToHsv r g b).2.2 }, true)) := by
  refine ⟨by decide, ?_, by decide, ?_⟩
  · exact (C8_hex_input "not hex" ⟨10, 1/2, 1/2⟩).1 (by decide)
  · exact (C8_hex_input "#1A2b3C" ⟨10, 1/2, 1/2⟩).2 (by decide)

/-- C9: every key present in the map stored by `saveForm` is non-empty
and is the name of some non-file field of the form; in particular nothing
is stored for unnamed fields or file fields. -/
theorem C9_saveForm_keys (form : List FormField) (n : String) (v : StoredVal)
    (h : saveForm form n = some v) :
    n ≠ "" ∧ ∃ f ∈ form, f.name = n ∧ f.type ≠ "file" := by
  by_cases hn : n = ""
  · subst hn
    rw [saveForm_apply_empty_name] at h
    exact absurd h (by simp)
  · refine ⟨hn, ?_⟩
    rw [saveForm_apply form n hn] at h
    rcases hg : fieldGroup n form with _ | ⟨f, t⟩
    · rw [hg] at h
      simp at h
    · have hf : f ∈ fieldGroup n form := by
        rw [hg]
        exact List.mem_cons_self f t
      have hm := List.mem_filter.mp hf
      exact ⟨f, hm.1, by simpa using hm.2⟩

/-- Witness for C9: a one-field form whose stored map holds exactly the
field's name. -/
theorem C9_witness :
    saveForm [⟨"text", "a", "v", false⟩] "a" = some (.str "v") ∧
      ("a" : String) ≠ "" ∧
      ∃ f ∈ [(⟨"text", "a", "v", false⟩ : FormField)], f.name = "a" ∧ f.type ≠ "file" :=
  ⟨by decide, C9_saveForm_keys [⟨"text", "a", "v", false⟩] "a" (.str "v") (by decide)⟩

/-- C10: with an empty ROM file field, `patchROM` returns `false` at once:
the digest is never computed, the warning keeps its previous visibility,
and the form is not submitted. -/
theorem C10_empty_rom (digest : List ℕ) (hidden : Bool) :
    patchROM "" digest hidden =
      ⟨hidden, false, some false, false⟩ := by
  unfold patchROM
  rw [if_pos rfl]

/-! ### HSV round trip (C1) -/

lemma jsMod_two_eq_self {x : ℚ} (h0 : 0 ≤ x) (h2 : x < 2) : jsMod x 2 = x := by
  unfold jsMod
  have hf : ⌊x / 2⌋ = 0 := Int.floor_eq_zero_iff.mpr ⟨by positivity, by linarith⟩
  rw [hf]
  norm_num

lemma jsMod_two_sub_two {x : ℚ} (h0 : 2 ≤ x) (h2 : x < 4) : jsMod x 2 = x - 2 := by
  unfold jsMod
  have hf : ⌊x / 2⌋ = 1 := Int.floor_eq_iff.mpr ⟨by push_cast; linarith, by push_cast; linarith⟩
  rw [hf]
  push_cast
  ring

lemma jsMod_two_sub_four {x : ℚ} (h0 : 4 ≤ x) (h2 : x < 6) : jsMod x 2 = x - 4 := by
  unfold jsMod
  have hf : ⌊x / 2⌋ = 2 := Int.floor_eq_iff.mpr ⟨by push_cast; linarith, by push_cast; linarith⟩
  rw [hf]
  push_cast
  ring

lemma clamp255_eq (x : ℚ) (h0 : 0 ≤ x) (h1 : x ≤ 255) : clamp255 x = x := by
  unfold clamp255
  rw [min_eq_left h1, max_eq_left h0]


lemma rgbToHsv_sector1 (c t m : ℚ) (hc0 : 0 ≤ c) (ht0 : 0 ≤ t) (ht1 : t ≤ 1)
    (hm : 0 ≤ m) (hcm : c + m ≤ 1) :
    rgbToHsv (clamp255 ((c + m) * 255)) (clamp255 ((c * t + m) * 255))
      (clamp255 ((0 + m) * 255)) =
      (if c = 0 then 0 else 60 * t, if c + m = 0 then 0 else c / (c + m), c + m) := by
  have hx0 : 0 ≤ c * t := mul_nonneg hc0 ht0
  have hxc : c * t ≤ c := mul_le_of_le_one_right hc0 ht1
  rw [clamp255_eq ((c + m) * 255) (by nlinarith) (by nlinarith),
      clamp255_eq ((c * t + m) * 255) (by nlinarith) (by nlinarith),
      clamp255_eq ((0 + m) * 255) (by nlinarith) (by nlinarith)]
  have hg : (c * t + m) * 255 ≤ (c + m) * 255 := by nlinarith
  have hb : (0 + m) * 255 ≤ (c * t + m) * 255 := by nlinarith
  unfold rgbToHsv
  dsimp only
  rw [max_eq_left hb, max_eq_left hg, min_eq_right hb, min_eq_right (hb.trans hg)]
  have hAC : (c + m) * 255 - (0 + m) * 255 = c * 255 := by ring
  rw [hAC]
  by_cases hc : c = 0
  · subst hc
    norm_num [mul_div_assoc]
  · have hcpos : 0 < c := lt_of_le_of_ne hc0 (Ne.symm hc)
    have hc255 : c * 255 ≠ 0 := by positivity
    have hcm0 : (0:ℚ) < c + m := by linarith
    have hApos : (0:ℚ) < (c + m) * 255 := by nlinarith
    have hBC : (c + m) * 255 ≥ (c * t + m) * 255 ∧ (c + m) * 255 ≥ (0 + m) * 255 :=
      ⟨hg, hb.trans hg⟩
    rw [if_pos (show c * 255 ≠ 0 from hc255)]
    rw [if_pos hBC]
    rw [show (c * t + m) * 255 - (0 + m) * 255 = c * t * 255 from by ring]
    rw [show (60:ℚ) * (c * t * 255) / (c * 255) = 60 * t from by (field_simp; ring)]
    rw [if_neg (show ¬(60 * t < (0:ℚ)) from not_lt.mpr (by positivity))]
    rw [if_pos (show (c + m) * 255 ≠ 0 from ne_of_gt hApos)]
    rw [if_neg hc, if_neg (show ¬(c + m = 0) from ne_of_gt hcm0)]
    simp only [Prod.mk.injEq]
    refine ⟨trivial, ?_, ?_⟩
    · field_simp
      ring
    · rw [mul_div_assoc]
      norm_num

lemma rgbToHsv_sector2 (c t m : ℚ) (hc0 : 0 ≤ c) (ht0 : 0 ≤ t) (ht1 : t ≤ 1)
    (hm : 0 ≤ m) (hcm : c + m ≤ 1) :
    rgbToHsv (clamp255 ((c * t + m) * 255)) (clamp255 ((c + m) * 255))
      (clamp255 ((0 + m) * 255)) =
      (if c = 0 then 0 else 120 - 60 * t, if c + m = 0 then 0 else c / (c + m), c + m) := by
  have hx0 : 0 ≤ c * t := mul_nonneg hc0 ht0
  have hxc : c * t ≤ c := mul_le_of_le_one_right hc0 ht1
  rw [clamp255_eq ((c * t + m) * 255) (by nlinarith) (by nlinarith),
      clamp255_eq ((c + m) * 255) (by nlinarith) (by nlinarith),
      clamp255_eq ((0 + m) * 255) (by nlinarith) (by nlinarith)]
  have hg : (c * t + m) * 255 ≤ (c + m) * 255 := by nlinarith
  have hb : (0 + m) * 255 ≤ (c * t + m) * 255 := by nlinarith
  unfold rgbToHsv
  dsimp only
  rw [max_eq_left (hb.trans hg), max_eq_right hg, min_eq_right (hb.trans hg),
      min_eq_right hb]
  have hAC : (c + m) * 255 - (0 + m) * 255 = c * 255 := by ring
  rw [hAC]
  by_cases hc : c = 0
  · subst hc
    norm_num [mul_div_assoc]
  · have hcpos : 0 < c := lt_of_le_of_ne hc0 (Ne.symm hc)
    have hc255 : c * 255 ≠ 0 := by positivity
    have hcm0 : (0:ℚ) < c + m := by linarith
    have hApos : (0:ℚ) < (c + m) * 255 := by nlinarith
    rw [if_pos (show c * 255 ≠ 0 from hc255)]
    rw [if_pos (show (c + m) * 255 ≠ 0 from ne_of_gt hApos)]
    rw [if_neg hc, if_neg (show ¬(c + m = 0) from ne_of_gt hcm0)]
    by_cases hBA : (c + m) * 255 ≤ (c * t + m) * 255
    · have htone : t = 1 := by
        have hct : c * t = c := le_antisymm hxc (by nlinarith)
        have := mul_left_cancel₀ hc (by linarith [hct] : c * t = c * 1)
        exact this
      rw [if_pos (show (c * t + m) * 255 ≥ (c + m) * 255 ∧
            (c * t + m) * 255 ≥ (0 + m) * 255 from ⟨hBA, hb⟩)]
      rw [show (60:ℚ) * (c * 255) / (c * 255) = 60 from by field_simp]
      rw [if_neg (show ¬((60:ℚ) < 0) from by norm_num)]
      rw [htone]
      simp only [Prod.mk.injEq]
      refine ⟨by norm_num, ?_, ?_⟩
      · field_simp
        ring
      · rw [mul_div_assoc]
        norm_num
    · rw [if_neg (show ¬((c * t + m) * 255 ≥ (c + m) * 255 ∧
            (c * t + m) * 255 ≥ (0 + m) * 255) from fun hco => hBA hco.1)]
      rw [if_pos (show (c + m) * 255 ≥ (c * t + m) * 255 ∧
            (c + m) * 255 ≥ (0 + m) * 255 from ⟨hg, hb.trans hg⟩)]
      rw [show (0 + m) * 255 - (c * t + m) * 255 = -(c * t * 255) from by ring]
      rw [show (120:ℚ) + 60 * -(c * t * 255) / (c * 255) = 120 - 60 * t from by
        (field_simp; ring)]
      rw [if_neg (show ¬((120:ℚ) - 60 * t < 0) from not_lt.mpr (by nlinarith))]
      simp only [Prod.mk.injEq]
      refine ⟨trivial, ?_, ?_⟩
      · field_simp
        ring
      · rw [mul_div_assoc]
        norm_num

lemma rgbToHsv_sector3 (c t m : ℚ) (hc0 : 0 ≤ c) (ht0 : 0 ≤ t) (ht1 : t ≤ 1)
    (hm : 0 ≤ m) (hcm : c + m ≤ 1) :
    rgbToHsv (clamp255 ((0 + m) * 255)) (clamp255 ((c + m) * 255))
      (clamp255 ((c * t + m) * 255)) =
      (if c = 0 then 0 else 120 + 60 * t, if c + m = 0 then 0 else c / (c + m), c + m) := by
  have hx0 : 0 ≤ c * t := mul_nonneg hc0 ht0
  have hxc : c * t ≤ c := mul_le_of_le_one_right hc0 ht1
  rw [clamp255_eq ((0 + m) * 255) (by nlinarith) (by nlinarith),
      clamp255_eq ((c + m) * 255) (by nlinarith) (by nlinarith),
      clamp255_eq ((c * t + m) * 255) (by nlinarith) (by nlinarith)]
  have hg : (c * t + m) * 255 ≤ (c + m) * 255 := by nlinarith
  have hb : (0 + m) * 255 ≤ (c * t + m) * 255 := by nlinarith
  unfold rgbToHsv
  dsimp only
  rw [max_eq_left hg, max_eq_right (hb.trans hg), min_eq_right hg, min_eq_left hb]
  have hAC : (c + m) * 255 - (0 + m) * 255 = c * 255 := by ring
  rw [hAC]
  by_cases hc : c = 0
  · subst hc
    norm_num [mul_div_assoc]
  · have hcpos : 0 < c := lt_of_le_of_ne hc0 (Ne.symm hc)
    have hc255 : c * 255 ≠ 0 := by positivity
    have hcm0 : (0:ℚ) < c + m := by linarith
    have hApos : (0:ℚ) < (c + m) * 255 := by nlinarith
    have hCA : (0 + m) * 255 < (c + m) * 255 := by nlinarith
    rw [if_pos (show c * 255 ≠ 0 from hc255)]
    rw [if_neg (show ¬((0 + m) * 255 ≥ (c + m) * 255 ∧
          (0 + m) * 255 ≥ (c * t + m) * 255) from fun hco => absurd hco.1 (not_le.mpr hCA))]
    rw [if_pos (show (c + m) * 255 ≥ (0 + m) * 255 ∧
          (c + m) * 255 ≥ (c * t + m) * 255 from ⟨hb.trans hg, hg⟩)]
    rw [show (c * t + m) * 255 - (0 + m) * 255 = c * t * 255 from by ring]
    rw [show (120:ℚ) + 60 * (c * t * 255) / (c * 255) = 120 + 60 * t from by
      (field_simp; ring)]
    rw [if_neg (show ¬((120:ℚ) + 60 * t < 0) from not_lt.mpr (by positivity))]
    rw [if_pos (show (c + m) * 255 ≠ 0 from ne_of_gt hApos)]
    rw [if_neg hc, if_neg (show ¬(c + m = 0) from ne_of_gt hcm0)]
    simp only [Prod.mk.injEq]
    refine ⟨trivial, ?_, ?_⟩
    · field_simp
      ring
    · rw [mul_div_assoc]
      norm_num

lemma rgbToHsv_sector4 (c t m : ℚ) (hc0 : 0 ≤ c) (ht0 : 0 ≤ t) (ht1 : t ≤ 1)
    (hm : 0 ≤ m) (hcm : c + m ≤ 1) :
    rgbToHsv (clamp255 ((0 + m) * 255)) (clamp255 ((c * t + m) * 255))
      (clamp255 ((c + m) * 255)) =
      (if c = 0 then 0 else 240 - 60 * t, if c + m = 0 then 0 else c / (c + m), c + m) := by
  have hx0 : 0 ≤ c * t := mul_nonneg hc0 ht0
  have hxc : c * t ≤ c := mul_le_of_le_one_right hc0 ht1
  rw [clamp255_eq ((0 + m) * 255) (by nlinarith) (by nlinarith),
      clamp255_eq ((c * t + m) * 255) (by nlinarith) (by nlinarith),
      clamp255_eq ((c + m) * 255) (by nlinarith) (by nlinarith)]
  have hg : (c * t + m) * 255 ≤ (c + m) * 255 := by nlinarith
  have hb : (0 + m) * 255 ≤ (c * t + m) * 255 := by nlinarith
  unfold rgbToHsv
  dsimp only
  rw [max_eq_right hg, max_eq_right (hb.trans hg), min_eq_left hg, min_eq_left hb]
  have hAC : (c + m) * 255 - (0 + m) * 255 = c * 255 := by ring
  rw [hAC]
  by_cases hc : c = 0
  · subst hc
    norm_num [mul_div_assoc]
  · have hcpos : 0 < c := lt_of_le_of_ne hc0 (Ne.symm hc)
    have hc255 : c * 255 ≠ 0 := by positivity
    have hcm0 : (0:ℚ) < c + m := by linarith
    have hApos : (0:ℚ) < (c + m) * 255 := by nlinarith
    have hCA : (0 + m) * 255 < (c + m) * 255 := by nlinarith
    rw [if_pos (show c * 255 ≠ 0 from hc255)]
    rw [if_neg (show ¬((0 + m) * 255 ≥ (c * t + m) * 255 ∧
          (0 + m) * 255 ≥ (c + m) * 255) from fun hco => absurd hco.2 (not_le.mpr hCA))]
    rw [if_pos (show (c + m) * 255 ≠ 0 from ne_of_gt hApos)]
    rw [if_neg hc, if_neg (show ¬(c + m = 0) from ne_of_gt hcm0)]
    by_cases hBA : (c + m) * 255 ≤ (c * t + m) * 255
    · have htone : t = 1 := by
        have hct : c * t = c := le_antisymm hxc (by nlinarith)
        exact mul_left_cancel₀ hc (by linarith [hct] : c * t = c * 1)
      rw [if_pos (show (c * t + m) * 255 ≥ (0 + m) * 255 ∧
            (c * t + m) * 255 ≥ (c + m) * 255 from ⟨hb, hBA⟩)]
      rw [show (120:ℚ) + 60 * (c * 255) / (c * 255) = 180 from by (field_simp; norm_num)]
      rw [if_neg (show ¬((180:ℚ) < 0) from by norm_num)]
      rw [htone]
      simp only [Prod.mk.injEq]
      refine ⟨by norm_num, ?_, ?_⟩
      · field_simp
        ring
      · rw [mul_div_assoc]
        norm_num
    · rw [if_neg (show ¬((c * t + m) * 255 ≥ (0 + m) * 255 ∧
            (c * t + m) * 255 ≥ (c + m) * 255) from fun hco => hBA hco.2)]
      rw [show (0 + m) * 255 - (c * t + m) * 255 = -(c * t * 255) from by ring]
      rw [show (240:ℚ) + 60 * -(c * t * 255) / (c * 255) = 240 - 60 * t from by
        (field_simp; ring)]
      rw [if_neg (show ¬((240:ℚ) - 60 * t < 0) from not_lt.mpr (by nlinarith))]
      simp only [Prod.mk.injEq]
      refine ⟨trivial, ?_, ?_⟩
      · field_simp
        ring
      · rw [mul_div_assoc]
        norm_num

lemma rgbToHsv_sector5 (c t m : ℚ) (hc0 : 0 ≤ c) (ht0 : 0 ≤ t) (ht1 : t ≤ 1)
    (hm : 0 ≤ m) (hcm : c + m ≤ 1) :
    rgbToHsv (clamp255 ((c * t + m) * 255)) (clamp255 ((0 + m) * 255))
      (clamp255 ((c + m) * 255)) =
      (if c = 0 then 0 else 240 + 60 * t, if c + m = 0 then 0 else c / (c + m), c + m) := by
  have hx0 : 0 ≤ c * t := mul_nonneg hc0 ht0
  have hxc : c * t ≤ c := mul_le_of_le_one_right hc0 ht1
  rw [clamp255_eq ((c * t + m) * 255) (by nlinarith) (by nlinarith),
      clamp255_eq ((0 + m) * 255) (by nlinarith) (by nlinarith),
      clamp255_eq ((c + m) * 255) (by nlinarith) (by nlinarith)]
  have hg : (c * t + m) * 255 ≤ (c + m) * 255 := by nlinarith
  have hb : (0 + m) * 255 ≤ (c * t + m) * 255 := by nlinarith
  unfold rgbToHsv
  dsimp only
  rw [max_eq_right (hb.trans hg), max_eq_right hg, min_eq_left (hb.trans hg),
      min_eq_right hb]
  have hAC : (c + m) * 255 - (0 + m) * 255 = c * 255 := by ring
  rw [hAC]
  by_cases hc : c = 0
  · subst hc
    norm_num [mul_div_assoc]
  · have hcpos : 0 < c := lt_of_le_of_ne hc0 (Ne.symm hc)
    have hc255 : c * 255 ≠ 0 := by positivity
    have hcm0 : (0:ℚ) < c + m := by linarith
    have hApos : (0:ℚ) < (c + m) * 255 := by nlinarith
    have hCA : (0 + m) * 255 < (c + m) * 255 := by nlinarith
    rw [if_pos (show c * 255 ≠ 0 from hc255)]
    rw [if_pos (show (c + m) * 255 ≠ 0 from ne_of_gt hApos)]
    rw [if_neg hc, if_neg (show ¬(c + m = 0) from ne_of_gt hcm0)]
    by_cases hBA : (c + m) * 255 ≤ (c * t + m) * 255
    · have htone : t = 1 := by
        have hct : c * t = c := le_antisymm hxc (by nlinarith)
        exact mul_left_cancel₀ hc (by linarith [hct] : c * t = c * 1)
      rw [if_pos (show (c * t + m) * 255 ≥ (0 + m) * 255 ∧
            (c * t + m) * 255 ≥ (c + m) * 255 from ⟨hb, hBA⟩)]
      rw [show (0 + m) * 255 - (c + m) * 255 = -(c * 255) from by ring]
      rw [show (60:ℚ) * -(c * 255) / (c * 255) = -60 from by field_simp]
      rw [if_pos (show (-60:ℚ) < 0 from by norm_num)]
      rw [htone]
      simp only [Prod.mk.injEq]
      refine ⟨by norm_num, ?_, ?_⟩
      · field_simp
        ring
      · rw [mul_div_assoc]
        norm_num
    · rw [if_neg (show ¬((c * t + m) * 255 ≥ (0 + m) * 255 ∧
            (c * t + m) * 255 ≥ (c + m) * 255) from fun hco => hBA hco.2)]
      rw [if_neg (show ¬((0 + m) * 255 ≥ (c * t + m) * 255 ∧
            (0 + m) * 255 ≥ (c + m) * 255) from fun hco => absurd hco.2 (not_le.mpr hCA))]
      rw [show (c * t + m) * 255 - (0 + m) * 255 = c * t * 255 from by ring]
      rw [show (240:ℚ) + 60 * (c * t * 255) / (c * 255) = 240 + 60 * t from by
        (field_simp; ring)]
      rw [if_neg (show ¬((240:ℚ) + 60 * t < 0) from not_lt.mpr (by positivity))]
      simp only [Prod.mk.injEq]
      refine ⟨trivial, ?_, ?_⟩
      · field_simp
        ring
      · rw [mul_div_assoc]
        norm_num

lemma rgbToHsv_sector6 (c t m : ℚ) (hc0 : 0 ≤ c) (ht0 : 0 ≤ t) (ht1 : t ≤ 1)
    (hm : 0 ≤ m) (hcm : c + m ≤ 1) :
    rgbToHsv (clamp255 ((c + m) * 255)) (clamp255 ((0 + m) * 255))
      (clamp255 ((c * t + m) * 255)) =
      (if c = 0 then 0 else if t = 0 then 0 else 360 - 60 * t,
       if c + m = 0 then 0 else c / (c + m), c + m) := by
  have hx0 : 0 ≤ c * t := mul_nonneg hc0 ht0
  have hxc : c * t ≤ c := mul_le_of_le_one_right hc0 ht1
  rw [clamp255_eq ((c + m) * 255) (by nlinarith) (by nlinarith),
      clamp255_eq ((0 + m) * 255) (by nlinarith) (by nlinarith),
      clamp255_eq ((c * t + m) * 255) (by nlinarith) (by nlinarith)]
  have hg : (c * t + m) * 255 ≤ (c + m) * 255 := by nlinarith
  have hb : (0 + m) * 255 ≤ (c * t + m) * 255 := by nlinarith
  unfold rgbToHsv
  dsimp only
  rw [max_eq_right hb, max_eq_left hg, min_eq_left hb, min_eq_right (hb.trans hg)]
  have hAC : (c + m) * 255 - (0 + m) * 255 = c * 255 := by ring
  rw [hAC]
  by_cases hc : c = 0
  · subst hc
    norm_num [mul_div_assoc]
  · have hcpos : 0 < c := lt_of_le_of_ne hc0 (Ne.symm hc)
    have hc255 : c * 255 ≠ 0 := by positivity
    have hcm0 : (0:ℚ) < c + m := by linarith
    have hApos : (0:ℚ) < (c + m) * 255 := by nlinarith
    rw [if_pos (show c * 255 ≠ 0 from hc255)]
    rw [if_pos (show (c + m) * 255 ≥ (0 + m) * 255 ∧
          (c + m) * 255 ≥ (c * t + m) * 255 from ⟨hb.trans hg, hg⟩)]
    rw [show (0 + m) * 255 - (c * t + m) * 255 = -(c * t * 255) from by ring]
    rw [show (60:ℚ) * -(c * t * 255) / (c * 255) = -(60 * t) from by
      (field_simp; ring)]
    rw [if_pos (show (c + m) * 255 ≠ 0 from ne_of_gt hApos)]
    rw [if_neg hc, if_neg (show ¬(c + m = 0) from ne_of_gt hcm0)]
    by_cases ht : t = 0
    · rw [ht]
      rw [if_neg (show ¬(-((60:ℚ) * 0) < 0) from by norm_num)]
      rw [if_pos rfl]
      simp only [Prod.mk.injEq]
      refine ⟨by norm_num, ?_, ?_⟩
      · field_simp
        ring
      · rw [mul_div_assoc]
        norm_num
    · have htpos : 0 < t := lt_of_le_of_ne ht0 (Ne.symm ht)
      rw [if_pos (show -((60:ℚ) * t) < 0 from by nlinarith)]
      rw [if_neg ht]
      simp only [Prod.mk.injEq]
      refine ⟨by ring, ?_, ?_⟩
      · field_simp
        ring
      · rw [mul_div_assoc]
        norm_num

lemma finish_components (h s v E : ℚ) (hE : v * s ≠ 0 → E = h) :
    ((if v * s = 0 then 0 else E,
      if v * s + (v - v * s) = 0 then 0 else v * s / (v * s + (v - v * s)),
      v * s + (v - v * s)) : ℚ × ℚ × ℚ) =
      (if s = 0 ∨ v = 0 then 0 else h, if v = 0 then 0 else s, v) := by
  have hsum : v * s + (v - v * s) = v := by ring
  rw [hsum]
  by_cases hv : v = 0
  · have hvs : v * s = 0 := by rw [hv]; ring
    rw [if_pos hvs, if_pos hv, if_pos (Or.inr hv), if_pos hv]
  · rw [if_neg hv, if_neg hv]
    by_cases hs : s = 0
    · have hvs : v * s = 0 := by rw [hs]; ring
      rw [if_pos hvs, if_pos (Or.inl hs), hvs, zero_div, hs]
    · have hvs : v * s ≠ 0 := mul_ne_zero hv hs
      have hor : ¬(s = 0 ∨ v = 0) := by
        rintro (h1 | h2)
        · exact hs h1
        · exact hv h2
      rw [if_neg hvs, if_neg hor, hE hvs, mul_div_cancel_left₀ s hv]

/-- C1 (amended): over exact rationals, converting (h, s, v) with
h in [0, 360) and s, v in [0, 1] to RGB with `hsvToRgb` and back with
`rgbToHsv` reproduces the value always, reproduces the saturation whenever
v is nonzero (when v = 0 the returned saturation is 0), and reproduces the
hue whenever both s and v are nonzero (when s = 0 or v = 0 the returned
hue is 0). -/
theorem C1_roundtrip_amended (h s v : ℚ) (hh0 : 0 ≤ h) (hh1 : h < 360)
    (hs0 : 0 ≤ s) (hs1 : s ≤ 1) (hv0 : 0 ≤ v) (hv1 : v ≤ 1) :
    rgbToHsv (hsvToRgb ⟨h, s, v⟩).1 (hsvToRgb ⟨h, s, v⟩).2.1
        (hsvToRgb ⟨h, s, v⟩).2.2 =
      (if s = 0 ∨ v = 0 then 0 else h, if v = 0 then 0 else s, v) := by
  have hc0 : 0 ≤ v * s := mul_nonneg hv0 hs0
  have hcle : v * s ≤ v := mul_le_of_le_one_right hv0 hs1
  have hm0 : 0 ≤ v - v * s := by linarith
  have hcm : v * s + (v - v * s) ≤ 1 := by linarith
  have h60 : (0:ℚ) < 60 := by norm_num
  unfold hsvToRgb
  dsimp only
  by_cases hb1 : h < 60
  · rw [if_pos hb1]
    dsimp only
    have hd2 : h / 60 < 2 := by rw [div_lt_iff₀ h60]; linarith
    rw [jsMod_two_eq_self (div_nonneg hh0 (le_of_lt h60)) hd2]
    have hd1 : h / 60 ≤ 1 := by rw [div_le_one h60]; linarith
    rw [abs_of_nonpos (by linarith : h / 60 - 1 ≤ 0)]
    rw [show v * s * (1 - -(h / 60 - 1)) = v * s * (h / 60) from by ring]
    rw [rgbToHsv_sector1 (v * s) (h / 60) (v - v * s) hc0
        (div_nonneg hh0 (le_of_lt h60)) hd1 hm0 hcm]
    exact finish_components h s v (60 * (h / 60)) (fun _ => by ring)
  · rw [if_neg hb1]
    by_cases hb2 : h < 120
    · rw [if_pos hb2]
      dsimp only
      have hd2 : h / 60 < 2 := by rw [div_lt_iff₀ h60]; linarith
      have hd1 : 1 ≤ h / 60 := by rw [le_div_iff₀ h60]; linarith
      rw [jsMod_two_eq_self (div_nonneg hh0 (le_of_lt h60)) hd2]
      rw [abs_of_nonneg (by linarith : 0 ≤ h / 60 - 1)]
      rw [show v * s * (1 - (h / 60 - 1)) = v * s * (2 - h / 60) from by ring]
      rw [rgbToHsv_sector2 (v * s) (2 - h / 60) (v - v * s) hc0
          (by linarith) (by linarith) hm0 hcm]
      exact finish_components h s v (120 - 60 * (2 - h / 60)) (fun _ => by ring)
    · rw [if_neg hb2]
      by_cases hb3 : h < 180
      · rw [if_pos hb3]
        dsimp only
        have hd2 : 2 ≤ h / 60 := by rw [le_div_iff₀ h60]; linarith
        have hd3 : h / 60 < 3 := by rw [div_lt_iff₀ h60]; linarith
        rw [jsMod_two_sub_two hd2 (by linarith)]
        rw [abs_of_nonpos (by linarith : h / 60 - 2 - 1 ≤ 0)]
        rw [show v * s * (1 - -(h / 60 - 2 - 1)) = v * s * (h / 60 - 2) from by ring]
        rw [rgbToHsv_sector3 (v * s) (h / 60 - 2) (v - v * s) hc0
            (by linarith) (by linarith) hm0 hcm]
        exact finish_components h s v (120 + 60 * (h / 60 - 2)) (fun _ => by ring)
      · rw [if_neg hb3]
        by_cases hb4 : h < 240
        · rw [if_pos hb4]
          dsimp only
          have hd3 : 3 ≤ h / 60 := by rw [le_div_iff₀ h60]; linarith
          have hd4 : h / 60 < 4 := by rw [div_lt_iff₀ h60]; linarith
          rw [jsMod_two_sub_two (by linarith) hd4]
          rw [abs_of_nonneg (by linarith : 0 ≤ h / 60 - 2 - 1)]
          rw [show v * s * (1 - (h / 60 - 2 - 1)) = v * s * (4 - h / 60) from by ring]
          rw [rgbToHsv_sector4 (v * s) (4 - h / 60) (v - v * s) hc0
              (by linarith) (by linarith) hm0 hcm]
          exact finish_components h s v (240 - 60 * (4 - h / 60)) (fun _ => by ring)
        · rw [if_neg hb4]
          by_cases hb5 : h < 300
          · rw [if_pos hb5]
            dsimp only
            have hd4 : 4 ≤ h / 60 := by rw [le_div_iff₀ h60]; linarith
            have hd5 : h / 60 < 5 := by rw [div_lt_iff₀ h60]; linarith
            rw [jsMod_two_sub_four hd4 (by linarith)]
            rw [abs_of_nonpos (by linarith : h / 60 - 4 - 1 ≤ 0)]
            rw [show v * s * (1 - -(h / 60 - 4 - 1)) = v * s * (h / 60 - 4) from by ring]
            rw [rgbToHsv_sector5 (v * s) (h / 60 - 4) (v - v * s) hc0
                (by linarith) (by linarith) hm0 hcm]
            exact finish_components h s v (240 + 60 * (h / 60 - 4)) (fun _ => by ring)
          · rw [if_neg hb5]
            dsimp only
            have hd5 : 5 ≤ h / 60 := by rw [le_div_iff₀ h60]; linarith
            have hd6 : h / 60 < 6 := by rw [div_lt_iff₀ h60]; linarith
            rw [jsMod_two_sub_four (by linarith) hd6]
            rw [abs_of_nonneg (by linarith : 0 ≤ h / 60 - 4 - 1)]
            rw [show v * s * (1 - (h / 60 - 4 - 1)) = v * s * (6 - h / 60) from by ring]
            rw [rgbToHsv_sector6 (v * s) (6 - h / 60) (v - v * s) hc0
                (by linarith) (by linarith) hm0 hcm]
            exact finish_components h s v
              (if 6 - h / 60 = 0 then 0 else 360 - 60 * (6 - h / 60))
              (fun _ => by
                rw [if_neg (show ¬((6:ℚ) - h / 60 = 0) from by intro hz; linarith)]
                ring)

/-- C1 counterexample: at (h, s, v) = (0, 1, 0) the round trip returns
saturation 0, not the original 1 — the claim excepts only the hue when
s = 0 or v = 0, but the saturation is also lost when v = 0. -/
theorem C1_counterexample :
    (rgbToHsv (hsvToRgb ⟨0, 1, 0⟩).1 (hsvToRgb ⟨0, 1, 0⟩).2.1
        (hsvToRgb ⟨0, 1, 0⟩).2.2).2.1 = 0 ∧ (0 : ℚ) ≠ 1 := by
  constructor
  · norm_num [hsvToRgb, rgbToHsv, jsMod, clamp255]
  · norm_num

/-- Witness for C1: the round trip at (90, 1/2, 1/2) returns exactly
(90, 1/2, 1/2). -/
theorem C1_witness :
    rgbToHsv (hsvToRgb ⟨90, 1/2, 1/2⟩).1 (hsvToRgb ⟨90, 1/2, 1/2⟩).2.1
        (hsvToRgb ⟨90, 1/2, 1/2⟩).2.2 = (90, 1/2, 1/2) := by
  have h := C1_roundtrip_amended 90 (1/2) (1/2) (by norm_num) (by norm_num)
    (by norm_num) (by norm_num) (by norm_num) (by norm_num)
  rw [if_neg (by norm_num), if_neg (by norm_num)] at h
  exact h

lemma countP_le_one_unique {α : Type} (p : α → Bool) :
    ∀ {l : List α}, l.countP p ≤ 1 → ∀ {a b : α}, a ∈ l → b ∈ l →
      p a = true → p b = true → a = b := by
  intro l
  induction l with
  | nil =>
      intro _ a b ha
      exact absurd ha (List.not_mem_nil a)
  | cons x t ih =>
      intro hc a b ha hb hpa hpb
      rw [List.countP_cons] at hc
      rcases List.mem_cons.mp ha with rfl | ha'
      · rcases List.mem_cons.mp hb with rfl | hb'
        · rfl
        · exfalso
          rw [if_pos hpa] at hc
          have ht0 : t.countP p = 0 := by omega
          exact (List.countP_eq_zero.mp ht0 b hb') hpb
      · rcases List.mem_cons.mp hb with rfl | hb'
        · exfalso
          rw [if_pos hpb] at hc
          have ht0 : t.countP p = 0 := by omega
          exact (List.countP_eq_zero.mp ht0 a ha') hpa
        · exact ih (le_trans (Nat.le_add_right _ _) hc) ha' hb' hpa hpb

lemma foldl_keyUpd_radio (g : List FormField) (w : String)
    (hall : ∀ f ∈ g, f.type = "radio")
    (hc : g.countP (fun f => f.checked) ≤ 1) :
    g.foldl keyUpd (some (.str w)) =
      some (.str (((g.find? (fun f => f.checked)).map (fun c => c.value)).getD w)) := by
  induction g generalizing w with
  | nil => simp
  | cons f t ih =>
      have hf : f.type = "radio" := hall f (List.mem_cons_self f t)
      have hallt : ∀ x ∈ t, x.type = "radio" :=
        fun x hx => hall x (List.mem_cons_of_mem f hx)
      rw [List.countP_cons] at hc
      rw [List.foldl_cons]
      by_cases hch : f.checked
      · have hk : keyUpd (some (.str w)) f = some (.str f.value) := by
          unfold keyUpd
          rw [if_neg (by simp [hch]), if_neg (by simp [hf])]
        rw [hk]
        rw [if_pos hch] at hc
        have hct : t.countP (fun f => f.checked) = 0 := by omega
        have hfind : t.find? (fun f => f.checked) = none :=
          List.find?_eq_none.mpr (fun x hx => by
            simpa using List.countP_eq_zero.mp hct x hx)
        rw [ih f.value hallt (by omega)]
        rw [List.find?_cons_of_pos _ hch, hfind]
        rfl
      · have hk : keyUpd (some (.str w)) f = some (.str w) := by
          unfold keyUpd
          rw [if_pos ⟨hf, Bool.eq_false_iff.mpr hch⟩]
          simp
        rw [hk]
        rw [if_neg hch] at hc
        rw [ih w hallt (by omega)]
        rw [List.find?_cons_of_neg _ hch]

lemma foldl_keyUpd_radio_none (g : List FormField)
    (hne : g ≠ []) (hall : ∀ f ∈ g, f.type = "radio")
    (hc : g.countP (fun f => f.checked) ≤ 1) :
    g.foldl keyUpd none =
      some (.str (((g.find? (fun f => f.checked)).map (fun c => c.value)).getD "")) := by
  rcases g with _ | ⟨f, t⟩
  · exact absurd rfl hne
  · have hf : f.type = "radio" := hall f (List.mem_cons_self f t)
    have hallt : ∀ x ∈ t, x.type = "radio" :=
      fun x hx => hall x (List.mem_cons_of_mem f hx)
    rw [List.countP_cons] at hc
    rw [List.foldl_cons]
    by_cases hch : f.checked
    · have hk : keyUpd none f = some (.str f.value) := by
        unfold keyUpd
        rw [if_neg (by simp [hch]), if_neg (by simp [hf])]
      rw [hk]
      rw [if_pos hch] at hc
      have hct : t.countP (fun f => f.checked) = 0 := by omega
      have hfind : t.find? (fun f => f.checked) = none :=
        List.find?_eq_none.mpr (fun x hx => by
          simpa using List.countP_eq_zero.mp hct x hx)
      rw [foldl_keyUpd_radio t f.value hallt (by omega)]
      rw [List.find?_cons_of_pos _ hch, hfind]
      rfl
    · have hk : keyUpd none f = some (.str "") := by
        unfold keyUpd
        rw [if_pos ⟨hf, Bool.eq_false_iff.mpr hch⟩, if_pos rfl]
      rw [hk]
      rw [if_neg hch] at hc
      rw [foldl_keyUpd_radio t "" hallt (by omega)]
      rw [List.find?_cons_of_neg _ hch]

lemma emptyCopy_keep (f : FormField) (h : f.type = "radio" ∨ f.type = "checkbox") :
    emptyCopy f = { f with checked := false } := by
  unfold emptyCopy
  rw [if_pos h]

lemma emptyCopy_clear (f : FormField) (h : ¬(f.type = "radio" ∨ f.type = "checkbox")) :
    emptyCopy f = { f with value := "", checked := false } := by
  unfold emptyCopy
  rw [if_neg h]

lemma loadFormStep_radio (data : Stored) (elem : FormField)
    (hr : elem.type = "radio") (hn : elem.name ≠ "") (w : String)
    (hdata : data elem.name = some (.str w)) :
    loadFormStep data elem = { elem with checked := w == elem.value } := by
  unfold loadFormStep
  rw [if_neg (by simp [hr, hn]), if_pos hr, hdata]
  show (if (w == elem.value) = true then _ else _) = _
  by_cases hw : (w == elem.value) = true
  · rw [if_pos hw, hw]
  · rw [if_neg hw, Bool.eq_false_iff.mpr hw]

lemma restore_radio (data : Stored) (f : FormField) (w : String)
    (hfr : f.type = "radio") (hname : f.name ≠ "")
    (hdata : data f.name = some (.str w)) :
    loadFormStep data (emptyCopy f) = { f with checked := w == f.value } := by
  rw [emptyCopy_keep f (Or.inl hfr)]
  exact loadFormStep_radio data { f with checked := false } hfr hname w hdata

lemma restore_checkbox (data : Stored) (f : FormField)
    (hcb : f.type = "checkbox") (hname : f.name ≠ "") (b : Bool)
    (hdata : data f.name = some (.bool b)) :
    loadFormStep data (emptyCopy f) = { f with checked := b } := by
  rw [emptyCopy_keep f (Or.inr hcb)]
  unfold loadFormStep
  dsimp only
  rw [if_neg (by simp [hcb, hname]), if_neg (by simp [hcb]), hdata]
  dsimp only
  rw [if_pos hcb]
  rfl

lemma restore_text (data : Stored) (f : FormField)
    (hr : f.type ≠ "radio") (hcb : f.type ≠ "checkbox") (hfile : f.type ≠ "file")
    (hname : f.name ≠ "") (w : String)
    (hdata : data f.name = some (.str w)) :
    loadFormStep data (emptyCopy f) =
      { f with value := toJsString (.str w), checked := false } := by
  rw [emptyCopy_clear f (by rintro (h1 | h2); exacts [hr h1, hcb h2])]
  unfold loadFormStep
  dsimp only
  rw [if_neg (by simp [hfile, hname]), if_neg hr, hdata]
  dsimp only
  rw [if_neg hcb]

/-- C3 (amended): for every form whose storage-key groups are well formed
(each key is either a radio group with pairwise distinct non-empty member
values and at most one checked member, or a single non-radio field),
saving the form and loading into an identically structured empty form
restores every named non-file field: radio and checkbox fields get their
original checked state (and keep their markup value), other fields get
their original value.  File fields and fields with empty names are never
restored. -/
theorem C3_roundtrip_amended (form : List FormField)
    (hwf : ∀ n, n ≠ "" → GroupOK (fieldGroup n form)) :
    List.Forall₂ (fun f fres =>
      f.name ≠ "" → f.type ≠ "file" →
        ((f.type = "radio" ∨ f.type = "checkbox") →
            fres.checked = f.checked ∧ fres.value = f.value) ∧
        (¬(f.type = "radio" ∨ f.type = "checkbox") → fres.value = f.value))
      form (loadForm (saveForm form) (form.map emptyCopy)) := by
  unfold loadForm
  rw [List.map_map, List.forall₂_map_right_iff, List.forall₂_same]
  intro f hfmem hname hfile
  simp only [Function.comp_apply]
  have hmemg : f ∈ fieldGroup f.name form := by
    unfold fieldGroup
    rw [List.mem_filter]
    exact ⟨hfmem, by simp [hfile]⟩
  have hgne : fieldGroup f.name form ≠ [] := by
    intro hEmpty
    rw [hEmpty] at hmemg
    exact absurd hmemg (List.not_mem_nil f)
  have hdata : saveForm form f.name = (fieldGroup f.name form).foldl keyUpd none :=
    saveForm_apply form f.name hname
  rcases hwf f.name hname with ⟨hall, hpair, hcount⟩ | ⟨f0, hg, hf0⟩
  · -- a radio group
    have hfr : f.type = "radio" := (hall f hmemg).1
    have hfv : f.value ≠ "" := (hall f hmemg).2
    rw [foldl_keyUpd_radio_none _ hgne (fun x hx => (hall x hx).1) hcount] at hdata
    set w := ((List.find? (fun x => x.checked)
        (fieldGroup f.name form)).map (fun c => c.value)).getD "" with hw
    rw [restore_radio (saveForm form) f w hfr hname hdata]
    refine ⟨fun _ => ⟨?_, rfl⟩, fun hco => absurd (Or.inl hfr) hco⟩
    show (w == f.value) = f.checked
    rcases hfind : (fieldGroup f.name form).find? (fun x => x.checked) with _ | c
    · rw [hfind] at hw
      simp at hw
      have hfc : f.checked = false := by
        have := List.find?_eq_none.mp hfind f hmemg
        simpa using this
      rw [hw, hfc]
      exact beq_eq_false_iff_ne.mpr (Ne.symm hfv)
    · rw [hfind] at hw
      simp at hw
      have hcmem : c ∈ fieldGroup f.name form := List.mem_of_find?_eq_some hfind
      have hcch : c.checked = true := List.find?_some hfind
      by_cases hfc : f.checked
      · have hfceq : f = c :=
          countP_le_one_unique (fun x => x.checked) hcount hmemg hcmem hfc hcch
        rw [hw, hfc, ← hfceq]
        exact beq_self_eq_true f.value
      · have hfne : f ≠ c := by
          intro hEq
          rw [hEq] at hfc
          exact hfc hcch
        have hvne : c.value ≠ f.value := by
          have hsym : Symmetric (fun a b : FormField => a.value ≠ b.value) :=
            fun a b hab => fun e => hab e.symm
          exact hpair.forall hsym hcmem hmemg (Ne.symm hfne)
        rw [hw, Bool.eq_false_iff.mpr hfc]
        exact beq_eq_false_iff_ne.mpr hvne
  · -- a single non-radio field
    have hf0f : f = f0 := by
      rw [hg] at hmemg
      simpa using hmemg
    subst hf0f
    rw [hg, List.foldl_cons, List.foldl_nil] at hdata
    unfold keyUpd at hdata
    rw [if_neg (fun hco => hf0 hco.1)] at hdata
    by_cases hcb : f.type = "checkbox"
    · rw [if_pos hcb] at hdata
      rw [restore_checkbox (saveForm form) f hcb hname f.checked hdata]
      exact ⟨fun _ => ⟨rfl, rfl⟩, fun hco => absurd (Or.inr hcb) hco⟩
    · rw [if_neg hcb] at hdata
      rw [restore_text (saveForm form) f hf0 hcb hfile hname f.value hdata]
      exact ⟨fun hco => absurd hco (by rintro (h1 | h2); exacts [hf0 h1, hcb h2]),
        fun _ => rfl⟩

/-- C3 counterexample: a form with a single text field whose `name` is the
empty string is skipped by both `saveForm` and `loadForm`, so the round
trip leaves the value empty instead of restoring `x` — the claim excepts
only file-type fields. -/
theorem C3_counterexample :
    loadForm (saveForm [⟨"text", "", "x", false⟩])
        ([(⟨"text", "", "x", false⟩ : FormField)].map emptyCopy) =
      [⟨"text", "", "", false⟩] ∧ ("" : String) ≠ "x" := by
  constructor
  · decide
  · decide

/-- Witness for C3: a radio group with one checked member plus a checked
checkbox round-trips exactly. -/
theorem C3_witness :
    List.Forall₂ (fun f fres : FormField =>
      f.name ≠ "" → f.type ≠ "file" →
        ((f.type = "radio" ∨ f.type = "checkbox") →
            fres.checked = f.checked ∧ fres.value = f.value) ∧
        (¬(f.type = "radio" ∨ f.type = "checkbox") → fres.value = f.value))
      [⟨"radio", "g", "x", false⟩, ⟨"radio", "g", "y", true⟩,
        ⟨"checkbox", "b", "on", true⟩]
      (loadForm (saveForm [⟨"radio", "g", "x", false⟩, ⟨"radio", "g", "y", true⟩,
          ⟨"checkbox", "b", "on", true⟩])
        ([(⟨"radio", "g", "x", false⟩ : FormField), ⟨"radio", "g", "y", true⟩,
          ⟨"checkbox", "b", "on", true⟩].map emptyCopy)) ∧
      loadForm (saveForm [⟨"radio", "g", "x", false⟩, ⟨"radio", "g", "y", true⟩,
          ⟨"checkbox", "b", "on", true⟩])
        ([(⟨"radio", "g", "x", false⟩ : FormField), ⟨"radio", "g", "y", true⟩,
          ⟨"checkbox", "b", "on", true⟩].map emptyCopy) =
        [⟨"radio", "g", "x", false⟩, ⟨"radio", "g", "y", true⟩,
          ⟨"checkbox", "b", "on", true⟩] := by
  constructor
  · refine C3_roundtrip_amended _ ?_
    intro n hn
    by_cases hg : n = "g"
    · subst hg
      exact Or.inl ⟨by decide, by decide, by decide⟩
    · by_cases hb : n = "b"
      · subst hb
        exact Or.inr ⟨⟨"checkbox", "b", "on", true⟩, by decide, by decide⟩
      · have hemp : fieldGroup n [(⟨"radio", "g", "x", false⟩ : FormField),
            ⟨"radio", "g", "y", true⟩, ⟨"checkbox", "b", "on", true⟩] = [] := by
          unfold fieldGroup
          rw [List.filter_cons_of_neg (by simp [Ne.symm hg]),
              List.filter_cons_of_neg (by simp [Ne.symm hg]),
              List.filter_cons_of_neg (by simp [Ne.symm hb])]
          rfl
        rw [hemp]
        exact Or.inl ⟨fun f hf => absurd hf (List.not_mem_nil f), List.Pairwise.nil,
          by simp⟩
  · decide
